import Mathlib

/-!
Verification of the three-urdf core (URDF parser + kinematic tree builder)
against its natural-language specification.

The development shallowly embeds the TypeScript sources:

* `src/types.ts`   — the URDF data model (`RPY`, `Pose`, `Joint`, `Link`,
  `RobotModel`, ...), made polymorphic over the scalar type `α` so that the
  numeric payload (JS numbers) can be instantiated with `ℝ` for the rotation
  math and with a decidable type for concrete runs.
* `src/parser.ts`  — the XML-to-model parser.  The external XML library
  (`fast-xml-parser`) is modelled by an explicit attributed-element tree
  (`XMLElem`); JS `parseFloat` is an external builtin and is passed in as an
  abstract function `pf : String → α` (none of the verified claims depend on
  its values).  Fallible parsing is an `Except String` computation, matching
  the source's `throw new Error(...)`.
* `src/builder.ts` — the Three.js tree builder.  Three.js quaternion
  primitives (`Quaternion.multiply`, `setFromAxisAngle`, `setFromEuler` with
  order ZYX, `Vector3.normalize`) are modelled component-for-component from
  the Three.js sources over `ℝ`.  The per-joint mutable node is explicit
  state (`JointNodeState`); the recursive `buildLink` traversal is embedded
  with a fuel parameter (the JS call stack), `none` modelling a run that
  never returns.
-/

namespace ThreeUrdf

/-! ## Definitions: the shallow embedding of `src/types.ts`, `src/parser.ts` and `src/builder.ts` (with the three.js and JS-builtin primitives they call), plus the concrete inputs the claims are settled on. -/

/-- 3-component vector (`three`'s `Vector3`; polymorphic over the scalar). -/
structure Vec3 (α : Type) where
  x : α
  y : α
  z : α
deriving DecidableEq, Repr

/-- Quaternion with real components, as `three`'s `Quaternion` (stored x, y, z, w;
written here w-first). -/
structure Quat where
  w : ℝ
  x : ℝ
  y : ℝ
  z : ℝ

/-- Hamilton product, component-for-component the formulas of
`Quaternion.multiplyQuaternions(a, b)` in three.js (so `a.multiply(b)` in the
source is `a * b` here). -/
def Quat.mul (a b : Quat) : Quat :=
  { w := a.w * b.w - a.x * b.x - a.y * b.y - a.z * b.z
    x := a.x * b.w + a.w * b.x + a.y * b.z - a.z * b.y
    y := a.y * b.w + a.w * b.y + a.z * b.x - a.x * b.z
    z := a.z * b.w + a.w * b.z + a.x * b.y - a.y * b.x }

noncomputable instance : Mul Quat := ⟨Quat.mul⟩

/-- Quaternion conjugate (`Quaternion.conjugate` in three.js). -/
def Quat.conj (a : Quat) : Quat := { w := a.w, x := -a.x, y := -a.y, z := -a.z }

/-- The rotation action of a (unit) quaternion on a vector stored as a pure
quaternion: `q * v * conj q`.  Composition of rotations about axes of the one
fixed world frame is quaternion multiplication through this action
(`rotQ_mul` below). -/
noncomputable def rotQ (q v : Quat) : Quat := q * v * q.conj

/-- `Quaternion.setFromAxisAngle(axis, angle)` of three.js: assumes `axis` is
normalized; half-angle encoding of the rotation by `angle` about `axis`. -/
noncomputable def setFromAxisAngle (axis : Vec3 ℝ) (angle : ℝ) : Quat :=
  { w := Real.cos (angle / 2)
    x := axis.x * Real.sin (angle / 2)
    y := axis.y * Real.sin (angle / 2)
    z := axis.z * Real.sin (angle / 2) }

/-- `Quaternion.setFromEuler` of three.js for an Euler triple `(ex, ey, ez)`
with order `'ZYX'`, component-for-component from the three.js source. -/
noncomputable def setFromEulerZYX (ex ey ez : ℝ) : Quat :=
  { w := Real.cos (ex / 2) * Real.cos (ey / 2) * Real.cos (ez / 2) +
         Real.sin (ex / 2) * Real.sin (ey / 2) * Real.sin (ez / 2)
    x := Real.sin (ex / 2) * Real.cos (ey / 2) * Real.cos (ez / 2) -
         Real.cos (ex / 2) * Real.sin (ey / 2) * Real.sin (ez / 2)
    y := Real.cos (ex / 2) * Real.sin (ey / 2) * Real.cos (ez / 2) +
         Real.sin (ex / 2) * Real.cos (ey / 2) * Real.sin (ez / 2)
    z := Real.cos (ex / 2) * Real.cos (ey / 2) * Real.sin (ez / 2) -
         Real.sin (ex / 2) * Real.sin (ey / 2) * Real.cos (ez / 2) }

/-- Roll-pitch-yaw triple (`RPY` of `src/types.ts`). -/
structure RPY (α : Type) where
  r : α
  p : α
  y : α
deriving DecidableEq, Repr

/-- 6D pose (`Pose` of `src/types.ts`). -/
structure Pose (α : Type) where
  xyz : Vec3 α
  rpy : RPY α
deriving DecidableEq, Repr

/-- `rpyToEuler` of `src/builder.ts` followed by `Quaternion.setFromEuler`:
`new Euler(rpy.r, rpy.p, rpy.y, 'ZYX')` fed to the quaternion conversion. -/
noncomputable def rpyToQuat (rpy : RPY ℝ) : Quat := setFromEulerZYX rpy.r rpy.p rpy.y

/-- Modelled from the spec: the extrinsic (fixed-axis) X-then-Y-then-Z
rotation of a vector `v` — first rotate by `r` about the fixed X axis, then
by `p` about the fixed Y axis, then by `y` about the fixed Z axis, each
rotation about an axis of the one unmoving world frame. -/
noncomputable def extrinsicXYZ (r p y : ℝ) (v : Quat) : Quat :=
  rotQ (setFromAxisAngle ⟨0, 0, 1⟩ y)
    (rotQ (setFromAxisAngle ⟨0, 1, 0⟩ p)
      (rotQ (setFromAxisAngle ⟨1, 0, 0⟩ r) v))

/-- `JointLimits` of `src/types.ts`: each field independently optional. -/
structure JointLimits (α : Type) where
  lower : Option α := none
  upper : Option α := none
  effort : Option α := none
  velocity : Option α := none
deriving DecidableEq, Repr

/-- `JointAxis` of `src/types.ts`. -/
structure JointAxis (α : Type) where
  xyz : Vec3 α
deriving DecidableEq, Repr

/-- `SafetyController` of `src/types.ts`. -/
structure SafetyController (α : Type) where
  softLowerLimit : Option α := none
  softUpperLimit : Option α := none
  kPosition : Option α := none
  kVelocity : Option α := none
deriving DecidableEq, Repr

/-- `JointDynamics` of `src/types.ts`. -/
structure JointDynamics (α : Type) where
  damping : Option α := none
  friction : Option α := none
deriving DecidableEq, Repr

/-- `JointMimic` of `src/types.ts`. -/
structure JointMimic (α : Type) where
  joint : String
  multiplier : Option α := none
  offset : Option α := none
deriving DecidableEq, Repr

/-- `Joint` of `src/types.ts` (the `calibration` field is declared in the
interface but never produced by the parser and never read; it is omitted). -/
structure Joint (α : Type) where
  name : String
  type : String
  parent : String
  child : String
  origin : Pose α
  axis : Option (JointAxis α) := none
  limits : Option (JointLimits α) := none
  safetyController : Option (SafetyController α) := none
  dynamics : Option (JointDynamics α) := none
  mimic : Option (JointMimic α) := none
deriving DecidableEq, Repr

/-- `Vector3.normalize` of three.js: `divideScalar(this.length() || 1)` — the
zero vector (length `0`, falsy) is divided by `1` and stays the zero vector. -/
noncomputable def normalizeV3 (v : Vec3 ℝ) : Vec3 ℝ :=
  let len := Real.sqrt (v.x * v.x + v.y * v.y + v.z * v.z)
  if len = 0 then v else ⟨v.x / len, v.y / len, v.z / len⟩

/-- The node's `axis` as `buildLink` initializes it:
`jointData.axis?.xyz.clone().normalize() || new Vector3(0, 0, 1)` — the
default `+Z` applies only when the parsed joint carries no axis element (a
`Vector3` object is always truthy). -/
noncomputable def jointAxisVec (jd : Joint ℝ) : Vec3 ℝ :=
  match jd.axis with
  | some a => normalizeV3 a.xyz
  | none => ⟨0, 0, 1⟩

/-- The clamping prologue of `setJointValue` (`src/builder.ts` lines
204–211): raise to `lower` when below it, then cap at `upper` when above it,
whenever the parsed joint record carries a `limits` entry — the joint's type
is not consulted here. -/
def clampToLimits {α : Type} [LinearOrder α] (limits : Option (JointLimits α)) (value : α) : α :=
  match limits with
  | none => value
  | some lim =>
    let v1 := match lim.lower with
      | some lo => if value < lo then lo else value
      | none => value
    match lim.upper with
    | some hi => if hi < v1 then hi else v1
    | none => v1

/-- Modelled from the spec: "`v` clamped to the joint's declared lower/upper
limits when present (or `v` itself when no limits are declared)", expressed
with `min`/`max` rather than the source's sequential conditionals. -/
def clampSpec {α : Type} [LinearOrder α] (limits : Option (JointLimits α)) (v : α) : α :=
  match limits with
  | none => v
  | some lim =>
    let raised := match lim.lower with
      | some lo => max lo v
      | none => v
    match lim.upper with
    | some hi => min hi raised
    | none => raised

/-- The mutable transform state of a joint node (`Object3D.position`,
`Object3D.quaternion`, and the `URDFJoint.jointValue` field). -/
structure JointNodeState where
  position : Vec3 ℝ
  quaternion : Quat
  jointValue : ℝ

/-- The joint node as `buildLink` creates it (`src/builder.ts` lines
183–195): position copied from the origin translation, quaternion set from
the origin RPY, `jointValue` zero. -/
noncomputable def initialJointState (jd : Joint ℝ) : JointNodeState :=
  { position := jd.origin.xyz
    quaternion := rpyToQuat jd.origin.rpy
    jointValue := 0 }

/-- `setJointValue` of `src/builder.ts` (lines 203–229) as a state
transformer: clamp the requested value against the parsed limits, store it
in `jointValue`, then dispatch on the type tag — `revolute`/`continuous`
replace the orientation by origin-rotation times axis-rotation,
`prismatic` replaces the position by origin plus the scaled axis, every
other type leaves the transform untouched. -/
noncomputable def setJointValue (jd : Joint ℝ) (s : JointNodeState) (value : ℝ) :
    JointNodeState :=
  let v := clampToLimits jd.limits value
  let axis := jointAxisVec jd
  if jd.type = "revolute" ∨ jd.type = "continuous" then
    { s with
      jointValue := v
      quaternion := rpyToQuat jd.origin.rpy * setFromAxisAngle axis v }
  else if jd.type = "prismatic" then
    { s with
      jointValue := v
      position := ⟨jd.origin.xyz.x + axis.x * v, jd.origin.xyz.y + axis.y * v,
        jd.origin.xyz.z + axis.z * v⟩ }
  else
    { s with jointValue := v }

/-- A joint node state with identity transform. -/
noncomputable def state0 : JointNodeState := ⟨⟨0, 0, 0⟩, ⟨1, 0, 0, 0⟩, 0⟩

/-- A revolute joint with zero origin, default axis and no limits. -/
noncomputable def exRevolute : Joint ℝ :=
  { name := "shoulder", type := "revolute", parent := "base", child := "arm",
    origin := ⟨⟨0, 0, 0⟩, ⟨0, 0, 0⟩⟩ }

/-- A revolute joint with declared limits `[0, 1]`. -/
noncomputable def exRevoluteLimited : Joint ℝ :=
  { exRevolute with
    name := "elbow"
    limits := some { lower := some 0, upper := some 1 } }

/-- A continuous joint whose parsed record carries lower/upper limit entries
(the parser attaches a `<limit>` element to any joint type). -/
noncomputable def exContinuousLimited : Joint ℝ :=
  { exRevolute with
    name := "wheel"
    type := "continuous"
    limits := some { lower := some 0, upper := some 0 } }

/-- A fixed joint. -/
noncomputable def exFixed : Joint ℝ := { exRevolute with name := "mount", type := "fixed" }

/-- The geometry variant of `src/types.ts` (box, cylinder, sphere, mesh,
capsule). -/
inductive Geometry (α : Type) where
  | box (size : Vec3 α)
  | cylinder (radius length : α)
  | sphere (radius : α)
  | mesh (filename : String) (scale : Option (Vec3 α))
  | capsule (radius length : α)
deriving DecidableEq, Repr

/-- RGBA color (`Color` of `src/types.ts`). -/
structure Color (α : Type) where
  r : α
  g : α
  b : α
  a : α
deriving DecidableEq, Repr

/-- `Material` of `src/types.ts`. -/
structure Material (α : Type) where
  name : String
  color : Option (Color α) := none
  texture : Option String := none
deriving DecidableEq, Repr

/-- A `Visual`'s material: the TS union `Material | string` (the parser only
ever produces the string reference). -/
inductive MaterialRef (α : Type) where
  | ref (name : String)
  | inline (m : Material α)
deriving DecidableEq, Repr

/-- The six inertia-tensor scalars. -/
structure Inertia (α : Type) where
  ixx : α
  ixy : α
  ixz : α
  iyy : α
  iyz : α
  izz : α
deriving DecidableEq, Repr

/-- `Inertial` of `src/types.ts`. -/
structure Inertial (α : Type) where
  origin : Pose α
  mass : α
  inertia : Inertia α
deriving DecidableEq, Repr

/-- `Visual` of `src/types.ts`. -/
structure Visual (α : Type) where
  name : Option String := none
  origin : Pose α
  geometry : Geometry α
  material : Option (MaterialRef α) := none
deriving DecidableEq, Repr

/-- `Collision` of `src/types.ts`. -/
structure Collision (α : Type) where
  name : Option String := none
  origin : Pose α
  geometry : Geometry α
deriving DecidableEq, Repr

/-- `SelfCollision` of `src/types.ts` (non-standard extension). -/
structure SelfCollision (α : Type) where
  origin : Pose α
  geometry : Geometry α
deriving DecidableEq, Repr

/-- `Link` of `src/types.ts`. -/
structure Link (α : Type) where
  name : String
  inertial : Option (Inertial α) := none
  visuals : List (Visual α) := []
  collisions : List (Collision α) := []
  selfCollision : Option (SelfCollision α) := none
deriving DecidableEq, Repr

/-- `RobotModel` of `src/types.ts`.  The JS `Map`s are embedded as
association lists in insertion order (`mapSet` below implements `Map.set`'s
overwrite-in-place semantics); `rootLink` is `none` when left unset. -/
structure RobotModel (α : Type) where
  name : String
  materials : List (String × Material α) := []
  links : List (String × Link α) := []
  joints : List (String × Joint α) := []
  rootLink : Option String := none
deriving DecidableEq, Repr

/-- `Map.set`: an existing key keeps its insertion position and gets the new
value, a new key is appended. -/
def mapSet {β : Type} (m : List (String × β)) (k : String) (v : β) : List (String × β) :=
  if m.any (fun p => p.1 = k) then
    m.map (fun p => if p.1 = k then (k, v) else p)
  else
    m ++ [(k, v)]

/-- The two registration-call sequences a build performs. -/
structure BuildResult where
  builtLinks : List String
  builtJoints : List String
deriving DecidableEq, Repr

/-- The `jointsByParent` index (`src/builder.ts` lines 158–163): the model's
joints in `model.joints.values()` order, restricted to one parent link. -/
def jointsByParent {α : Type} (m : RobotModel α) (linkName : String) : List (Joint α) :=
  (m.joints.map Prod.snd).filter (fun j => j.parent = linkName)

/-- `buildLink` (`src/builder.ts` lines 165–236): an unknown link name
returns silently; otherwise the link node is created and registered, and for
each child joint (in order) a joint node is created and registered and the
traversal recurses into the joint's child link — with no check whether that
link was already built. -/
def buildLinkF {α : Type} (m : RobotModel α) : Nat → String → BuildResult → Option BuildResult
  | 0, _, _ => none
  | fuel + 1, linkName, acc =>
    match m.links.lookup linkName with
    | none => some acc
    | some _ =>
      (jointsByParent m linkName).foldlM
        (fun a j => buildLinkF m fuel j.child { a with builtJoints := a.builtJoints ++ [j.name] })
        { acc with builtLinks := acc.builtLinks ++ [linkName] }

/-- `buildRobotStructure` (`src/builder.ts` lines 238–242): traverse from the
root link when one is set, otherwise build nothing. -/
def buildRobotStructure {α : Type} (m : RobotModel α) (fuel : Nat) : Option BuildResult :=
  match m.rootLink with
  | some root => buildLinkF m fuel root ⟨[], []⟩
  | none => some ⟨[], []⟩

/-- Root-link inference (`src/parser.ts` lines 597–608): the first link name
in `model.links.keys()` order that no joint names as its child. -/
def findRootLink {α : Type} (linkNames : List String) (joints : List (Joint α)) : Option String :=
  let childLinks := joints.map (fun j => j.child)
  linkNames.find? (fun n => !(childLinks.contains n))

/-- The names collected into the parser's `childLinks` set. -/
def childLinkNames {α : Type} (m : RobotModel α) : List String :=
  (m.joints.map Prod.snd).map (fun j => j.child)

/-- The all-zero pose (over `Int`, so runs are kernel-decidable). -/
def zeroPoseI : Pose Int := ⟨⟨0, 0, 0⟩, ⟨0, 0, 0⟩⟩

/-- A fixed joint between two named links. -/
def mkJointI (name parent child : String) : Joint Int :=
  { name := name, type := "fixed", parent := parent, child := child, origin := zeroPoseI }

/-- A link with no payload. -/
def emptyLinkI (name : String) : Link Int := { name := name }

/-- Malformed model in which link `B` is reachable as a joint child by two
paths: two joints, both from root `R` to `B`. -/
def diamondModel : RobotModel Int :=
  { name := "diamond"
    links := [("R", emptyLinkI "R"), ("B", emptyLinkI "B")]
    joints := [("j1", mkJointI "j1" "R" "B"), ("j2", mkJointI "j2" "R" "B")]
    rootLink := some "R" }

/-- Malformed model whose joint graph reaches the cycle `A → B → A` from the
root `R`. -/
def cyclicModel : RobotModel Int :=
  { name := "cyclic"
    links := [("R", emptyLinkI "R"), ("A", emptyLinkI "A"), ("B", emptyLinkI "B")]
    joints := [("jRA", mkJointI "jRA" "R" "A"), ("jAB", mkJointI "jAB" "A" "B"),
      ("jBA", mkJointI "jBA" "B" "A")]
    rootLink := some "R" }

/-- An attributed XML element as the parser sees it. -/
inductive XMLElem where
  | mk (attrs : List (String × String)) (children : List (String × XMLElem))

/-- The `:@` attribute group of an element (`getAttributes` in the source). -/
def getAttributes : XMLElem → List (String × String)
  | .mk a _ => a

/-- The tag-keyed children of an element. -/
def XMLElem.children : XMLElem → List (String × XMLElem)
  | .mk _ c => c

/-- `getAttribute(element, name, defaultValue?)`: `attrs[name] ?? defaultValue
?? ''` — the `??` chain falls back only on a missing attribute, never on an
empty string. -/
def getAttribute (e : XMLElem) (name : String) (dflt : Option String) : String :=
  match (getAttributes e).lookup name with
  | some v => v
  | none => dflt.getD ""

/-- `getChild(element, name)`: first child with the tag (`array[0]`), or
nothing. -/
def getChild (e : XMLElem) (name : String) : Option XMLElem :=
  (e.children.find? (fun p => p.1 == name)).map Prod.snd

/-- `getChildren(element, name)`: every child with the tag, in order. -/
def getChildren (e : XMLElem) (name : String) : List XMLElem :=
  e.children.filterMap (fun p => if p.1 == name then some p.2 else none)

/-- JS `a || b` on strings: the empty string is falsy. -/
def jsOr (s dflt : String) : String := if s = "" then dflt else s

/-- JS `str.startsWith(p)`, modelled over the character sequence. -/
def strStartsWith (s p : String) : Bool := p.data.isPrefixOf s.data

/-- JS `str.trim()`: strip leading and trailing whitespace. -/
def trimJS (s : String) : String :=
  String.mk (((s.data.dropWhile Char.isWhitespace).reverse.dropWhile Char.isWhitespace).reverse)

/-- `str.trim().split(/\s+/)` of JS: splitting the empty trimmed string
yields the one-element array `[""]`; otherwise runs of whitespace separate
the tokens. -/
def splitWhitespaceJS (s : String) : List String :=
  let t := trimJS s
  if t = "" then [""]
  else ((t.data.splitOnP (fun c => c.isWhitespace)).map (fun cs => String.mk cs)).filter
    (fun p => p ≠ "")

/-- `parseVector3` (`src/parser.ts` lines 38–48): exactly three
whitespace-separated tokens or a thrown format error. -/
def parseVector3 {α : Type} (pf : String → α) (str : String) : Except String (Vec3 α) :=
  match splitWhitespaceJS str with
  | [a, b, c] => .ok ⟨pf a, pf b, pf c⟩
  | _ => .error ("Invalid vector3 format: " ++ str)

/-- `parseRPY` (`src/parser.ts` lines 53–63). -/
def parseRPY {α : Type} (pf : String → α) (str : String) : Except String (RPY α) :=
  match splitWhitespaceJS str with
  | [a, b, c] => .ok ⟨pf a, pf b, pf c⟩
  | _ => .error ("Invalid RPY format: " ++ str)

/-- The all-zero default pose the parser substitutes for a missing `origin`
element. -/
def defaultPose (α : Type) [Zero α] : Pose α := ⟨⟨0, 0, 0⟩, ⟨0, 0, 0⟩⟩

/-- `parseOrigin` (`src/parser.ts` lines 108–116): `attrs.xyz || '0 0 0'` and
`attrs.rpy || '0 0 0'` (JS `||`, so an empty attribute also falls back). -/
def parseOrigin {α : Type} (pf : String → α) (e : XMLElem) : Except String (Pose α) := do
  let xyz ← parseVector3 pf (jsOr (getAttribute e "xyz" none) "0 0 0")
  let rpy ← parseRPY pf (jsOr (getAttribute e "rpy" none) "0 0 0")
  .ok ⟨xyz, rpy⟩

/-- `parseColor` (`src/parser.ts` lines 121–134): `attrs.rgba || '0 0 0 1'`,
then exactly four tokens or a thrown format error. -/
def parseColor {α : Type} (pf : String → α) (e : XMLElem) : Except String (Color α) :=
  let rgbaStr := jsOr (getAttribute e "rgba" none) "0 0 0 1"
  match splitWhitespaceJS rgbaStr with
  | [a, b, c, d] => .ok ⟨pf a, pf b, pf c, pf d⟩
  | _ => .error ("Invalid color format: " ++ rgbaStr)

/-- `parseMaterial` (`src/parser.ts` lines 139–162). -/
def parseMaterial {α : Type} (pf : String → α) (e : XMLElem) : Except String (Material α) := do
  let name := getAttribute e "name" none
  if name = "" then
    .error "Material element missing name attribute"
  else
    let base : Material α := { name := name }
    let m1 ← match getChild e "color" with
      | some colorEl => do
          let c ← parseColor pf colorEl
          pure { base with color := some c }
      | none => pure base
    let m2 := match getChild e "texture" with
      | some textureEl =>
          let filename := getAttribute textureEl "filename" none
          if filename ≠ "" then { m1 with texture := some filename } else m1
      | none => m1
    .ok m2

/-- `ParseURDFOptions` of `src/types.ts`; the `Record` is an association
list, `workingPath` is `none` when absent (and, being a JS truthiness check,
an empty string behaves as absent too — kept as data here, checked at use). -/
structure ParseURDFOptions where
  packageMap : List (String × String) := []
  workingPath : Option String := none
  ignoreGazebo : Option Bool := none
  ignoreTransmission : Option Bool := none

/-- The regex `^package:\/\/([^/]+)\/(.+)$` applied after the
`startsWith('package://')` check: a nonempty slash-free package id, a slash,
and a nonempty remainder. -/
def splitPackageURI (s : String) : Option (String × String) :=
  let t := s.data.drop 10
  match t.splitOnP (fun c => c = '/') with
  | [] => none
  | [_] => none
  | pkg :: rest =>
    let path := List.intercalate ['/'] rest
    if pkg = [] ∨ path = [] then none
    else some (String.mk pkg, String.mk path)

/-- The `package://` rewriting step of `parseGeometry` (`src/parser.ts` lines
203–215): a matching URI whose id has a truthy (nonempty) mapping becomes
`<mapped>/<path>`; everything else passes through. -/
def resolvePackageURI (opts : ParseURDFOptions) (filename : String) : String :=
  if strStartsWith filename "package://" then
    match splitPackageURI filename with
    | some (packageName, path) =>
      match opts.packageMap.lookup packageName with
      | some mapped => if mapped ≠ "" then mapped ++ "/" ++ path else filename
      | none => filename
    | none => filename
  else filename

/-- The relative-path step of `parseGeometry` (`src/parser.ts` lines
217–220): `if (filename && !filename.startsWith('package://') &&
!filename.startsWith('/') && options.workingPath)`. -/
def applyWorkingPath (opts : ParseURDFOptions) (filename : String) : String :=
  match opts.workingPath with
  | some wp =>
    if wp ≠ "" ∧ filename ≠ "" ∧ ¬ strStartsWith filename "package://" ∧
        ¬ strStartsWith filename "/" then
      wp ++ "/" ++ filename
    else filename
  | none => filename

/-- The full mesh-filename resolution of `parseGeometry`: the `package://`
rewrite followed by the relative-path prefix. -/
def resolveMeshFilename (opts : ParseURDFOptions) (filename : String) : String :=
  applyWorkingPath opts (resolvePackageURI opts filename)

/-- `parseGeometry` (`src/parser.ts` lines 167–246): the five supported
shape tags tried in order box, cylinder, sphere, mesh, capsule; none of them
present is the thrown `Unknown geometry type`. -/
def parseGeometry {α : Type} (pf : String → α) (e : XMLElem) (opts : ParseURDFOptions) :
    Except String (Geometry α) :=
  match getChild e "box" with
  | some boxEl => do
    let size ← parseVector3 pf (getAttribute boxEl "size" (some "1 1 1"))
    .ok (.box size)
  | none =>
    match getChild e "cylinder" with
    | some cylinderEl =>
      .ok (.cylinder (pf (getAttribute cylinderEl "radius" (some "0.5")))
        (pf (getAttribute cylinderEl "length" (some "1"))))
    | none =>
      match getChild e "sphere" with
      | some sphereEl => .ok (.sphere (pf (getAttribute sphereEl "radius" (some "0.5"))))
      | none =>
        match getChild e "mesh" with
        | some meshEl =>
          let filename := resolveMeshFilename opts (getAttribute meshEl "filename" (some ""))
          let scaleStr := getAttribute meshEl "scale" none
          if scaleStr = "" then .ok (.mesh filename none)
          else do
            let sc ← parseVector3 pf scaleStr
            .ok (.mesh filename (some sc))
        | none =>
          match getChild e "capsule" with
          | some capsuleEl =>
            .ok (.capsule (pf (getAttribute capsuleEl "radius" (some "0.5")))
              (pf (getAttribute capsuleEl "length" (some "1"))))
          | none => .error "Unknown geometry type"

/-- `parseInertial` (`src/parser.ts` lines 251–284). -/
def parseInertial {α : Type} [Zero α] (pf : String → α) (e : XMLElem) :
    Except String (Inertial α) := do
  let origin ← match getChild e "origin" with
    | some originEl => parseOrigin pf originEl
    | none => pure (defaultPose α)
  let mass := match getChild e "mass" with
    | some massEl => pf (getAttribute massEl "value" (some "0"))
    | none => (0 : α)
  let inertia := match getChild e "inertia" with
    | some inertiaEl =>
      { ixx := pf (getAttribute inertiaEl "ixx" (some "0"))
        ixy := pf (getAttribute inertiaEl "ixy" (some "0"))
        ixz := pf (getAttribute inertiaEl "ixz" (some "0"))
        iyy := pf (getAttribute inertiaEl "iyy" (some "0"))
        iyz := pf (getAttribute inertiaEl "iyz" (some "0"))
        izz := pf (getAttribute inertiaEl "izz" (some "0")) }
    | none => ({ ixx := 0, ixy := 0, ixz := 0, iyy := 0, iyz := 0, izz := 0 } : Inertia α)
  .ok { origin := origin, mass := mass, inertia := inertia }

/-- `parseVisual` (`src/parser.ts` lines 289–319): a missing geometry child
is fatal; the origin (default zero) parses before the geometry. -/
def parseVisual {α : Type} [Zero α] (pf : String → α) (opts : ParseURDFOptions)
    (e : XMLElem) : Except String (Visual α) :=
  let name := getAttribute e "name" none
  match getChild e "geometry" with
  | none => .error "Visual element missing geometry"
  | some geometryEl => do
    let origin ← match getChild e "origin" with
      | some originEl => parseOrigin pf originEl
      | none => pure (defaultPose α)
    let geometry ← parseGeometry pf geometryEl opts
    let v : Visual α := { origin := origin, geometry := geometry }
    let v := if name ≠ "" then { v with name := some name } else v
    let v := match getChild e "material" with
      | some materialEl =>
        let materialName := getAttribute materialEl "name" none
        if materialName ≠ "" then { v with material := some (.ref materialName) } else v
      | none => v
    .ok v

/-- `parseCollision` (`src/parser.ts` lines 324–346). -/
def parseCollision {α : Type} [Zero α] (pf : String → α) (opts : ParseURDFOptions)
    (e : XMLElem) : Except String (Collision α) :=
  let name := getAttribute e "name" none
  match getChild e "geometry" with
  | none => .error "Collision element missing geometry"
  | some geometryEl => do
    let origin ← match getChild e "origin" with
      | some originEl => parseOrigin pf originEl
      | none => pure (defaultPose α)
    let geometry ← parseGeometry pf geometryEl opts
    let c : Collision α := { origin := origin, geometry := geometry }
    let c := if name ≠ "" then { c with name := some name } else c
    .ok c

/-- `parseLink` (`src/parser.ts` lines 351–392). -/
def parseLink {α : Type} [Zero α] (pf : String → α) (opts : ParseURDFOptions)
    (e : XMLElem) : Except String (Link α) := do
  let name := getAttribute e "name" none
  if name = "" then
    .error "Link element missing name attribute"
  else
    let inertial ← match getChild e "inertial" with
      | some inertialEl => do
          let i ← parseInertial pf inertialEl
          pure (some i)
      | none => pure none
    let visuals ← (getChildren e "visual").foldlM
      (fun acc visualEl => do
        let v ← parseVisual pf opts visualEl
        pure (acc ++ [v])) []
    let collisions ← (getChildren e "collision").foldlM
      (fun acc collisionEl => do
        let c ← parseCollision pf opts collisionEl
        pure (acc ++ [c])) []
    let selfCollision ← match getChild e "self_collision_checking" with
      | some selfEl =>
        match getChild selfEl "geometry" with
        | some geometryEl => do
            let origin ← match getChild selfEl "origin" with
              | some originEl => parseOrigin pf originEl
              | none => pure (defaultPose α)
            let g ← parseGeometry pf geometryEl opts
            pure (some (⟨origin, g⟩ : SelfCollision α))
        | none => pure none
      | none => pure none
    .ok { name := name, inertial := inertial, visuals := visuals,
          collisions := collisions, selfCollision := selfCollision }

/-- `parseJointLimits` (`src/parser.ts` lines 397–418): each bound is parsed
exactly when the attribute is present (`!== undefined`). -/
def parseJointLimits {α : Type} (pf : String → α) (e : XMLElem) : JointLimits α :=
  { lower := ((getAttributes e).lookup "lower").map pf
    upper := ((getAttributes e).lookup "upper").map pf
    effort := ((getAttributes e).lookup "effort").map pf
    velocity := ((getAttributes e).lookup "velocity").map pf }

/-- `parseSafetyController` (`src/parser.ts` lines 423–444). -/
def parseSafetyController {α : Type} (pf : String → α) (e : XMLElem) : SafetyController α :=
  { softLowerLimit := ((getAttributes e).lookup "soft_lower_limit").map pf
    softUpperLimit := ((getAttributes e).lookup "soft_upper_limit").map pf
    kPosition := ((getAttributes e).lookup "k_position").map pf
    kVelocity := ((getAttributes e).lookup "k_velocity").map pf }

/-- `parseJointDynamics` (`src/parser.ts` lines 449–462). -/
def parseJointDynamics {α : Type} (pf : String → α) (e : XMLElem) : JointDynamics α :=
  { damping := ((getAttributes e).lookup "damping").map pf
    friction := ((getAttributes e).lookup "friction").map pf }

/-- `parseJointAxis` (`src/parser.ts` lines 467–472). -/
def parseJointAxis {α : Type} (pf : String → α) (e : XMLElem) :
    Except String (JointAxis α) := do
  let xyz ← parseVector3 pf (getAttribute e "xyz" (some "0 0 1"))
  .ok ⟨xyz⟩

/-- `parseJoint` (`src/parser.ts` lines 477–544): name, type, and resolvable
parent/child `link` attributes are required; the `type` string is stored
uninspected (the TS cast validates nothing). -/
def parseJoint {α : Type} [Zero α] (pf : String → α) (_opts : ParseURDFOptions)
    (e : XMLElem) : Except String (Joint α) := do
  let name := getAttribute e "name" none
  if name = "" then
    .error "Joint element missing name attribute"
  else
    let jtype := getAttribute e "type" none
    if jtype = "" then
      .error "Joint element missing type attribute"
    else
      match getChild e "parent", getChild e "child" with
      | some parentEl, some childEl =>
        let parent := getAttribute parentEl "link" none
        let child := getAttribute childEl "link" none
        if parent = "" ∨ child = "" then
          .error "Joint parent or child missing link attribute"
        else do
          let origin ← match getChild e "origin" with
            | some originEl => parseOrigin pf originEl
            | none => pure (defaultPose α)
          let base : Joint α :=
            { name := name, type := jtype, parent := parent, child := child,
              origin := origin }
          let j ← match getChild e "axis" with
            | some axisEl => do
                let a ← parseJointAxis pf axisEl
                pure { base with axis := some a }
            | none => pure base
          let j := match getChild e "limit" with
            | some limitEl => { j with limits := some (parseJointLimits pf limitEl) }
            | none => j
          let j := match getChild e "safety_controller" with
            | some scEl => { j with safetyController := some (parseSafetyController pf scEl) }
            | none => j
          let j := match getChild e "dynamics" with
            | some dynEl => { j with dynamics := some (parseJointDynamics pf dynEl) }
            | none => j
          let j := match getChild e "mimic" with
            | some mimicEl =>
              let jointName := getAttribute mimicEl "joint" none
              let multiplier := getAttribute mimicEl "multiplier" none
              let offset := getAttribute mimicEl "offset" none
              let mim : JointMimic α :=
                { joint := jointName
                  multiplier := if multiplier ≠ "" then some (pf multiplier) else none
                  offset := if offset ≠ "" then some (pf offset) else none }
              { j with mimic := some mim }
            | none => j
          .ok j
      | _, _ => .error "Joint missing parent or child link"

/-- `parseURDF` (`src/parser.ts` lines 549–611), from the XML library's
output on: the `robot` root is required; materials, links and joints are
extracted in document order into name-keyed maps (`mapSet`, later duplicates
overwriting); the root link is inferred last.  Any thrown error aborts the
whole parse — the `Except` value is the only result, no partial model
escapes. -/
def parseURDF {α : Type} [Zero α] (pf : String → α) (parsedDoc : XMLElem)
    (opts : ParseURDFOptions) : Except String (RobotModel α) := do
  match getChild parsedDoc "robot" with
  | none => .error "URDF document missing <robot> root element"
  | some robotEl => do
    let robotName := jsOr (getAttribute robotEl "name" none) "robot"
    let materials ← (getChildren robotEl "material").foldlM
      (fun acc materialEl => do
        let m ← parseMaterial pf materialEl
        pure (mapSet acc m.name m)) []
    let links ← (getChildren robotEl "link").foldlM
      (fun acc linkEl => do
        let l ← parseLink pf opts linkEl
        pure (mapSet acc l.name l)) []
    let joints ← (getChildren robotEl "joint").foldlM
      (fun acc jointEl => do
        let j ← parseJoint pf opts jointEl
        pure (mapSet acc j.name j)) []
    .ok { name := robotName
          materials := materials
          links := links
          joints := joints
          rootLink := findRootLink (links.map Prod.fst) (joints.map Prod.snd) }

/-- A small well-formed document: robot `r` with links `base` and `arm` and a
revolute joint `j1` from `base` to `arm` (sanity input for the parser
embedding). -/
def exSmallDoc : XMLElem :=
  .mk [] [("robot", .mk [("name", "r")]
    [("link", .mk [("name", "base")] []),
     ("link", .mk [("name", "arm")] []),
     ("joint", .mk [("name", "j1"), ("type", "revolute")]
       [("parent", .mk [("link", "base")] []),
        ("child", .mk [("link", "arm")] [])])])]

/-- A document whose only link has a visual whose geometry holds an
unsupported `torus` tag. -/
def exBadGeometryDoc : XMLElem :=
  .mk [] [("robot", .mk [("name", "r")]
    [("link", .mk [("name", "base")]
      [("visual", .mk []
        [("geometry", .mk [] [("torus", .mk [] [])])])])])]

/-! ## Theorems: supporting lemmas, then the claim theorems with their witnesses and counterexamples. -/

/-- Sanity: the small document parses to the expected model, the root link
inferred as `base` (the one link no joint names as child). -/
theorem parseURDF_exSmallDoc :
    parseURDF (fun _ => (0 : Int)) exSmallDoc {} =
      .ok { name := "r"
            links := [("base", { name := "base" }), ("arm", { name := "arm" })]
            joints := [("j1",
              { name := "j1", type := "revolute", parent := "base", child := "arm",
                origin := ⟨⟨0, 0, 0⟩, ⟨0, 0, 0⟩⟩ })]
            rootLink := some "base" } := rfl

/-- Sanity: the unknown-geometry document fails end to end with the
geometry error, producing no model. -/
theorem parseURDF_exBadGeometryDoc :
    parseURDF (fun _ => (0 : Int)) exBadGeometryDoc {} =
      .error "Unknown geometry type" := rfl

theorem quat_ext_iff (a b : Quat) :
    a = b ↔ a.w = b.w ∧ a.x = b.x ∧ a.y = b.y ∧ a.z = b.z := by
  constructor
  ·
    intro h
    subst h
    exact ⟨rfl, rfl, rfl, rfl⟩
  ·
    rintro ⟨h1, h2, h3, h4⟩
    cases a
    cases b
    simp_all

theorem Quat.mul_def (a b : Quat) : a * b = Quat.mul a b := rfl

/-- Applying the product of two quaternions rotates by the right factor first:
the algebraic fact behind "extrinsic X-then-Y-then-Z is the product
`qZ * qY * qX`". -/
theorem rotQ_mul (a b v : Quat) : rotQ (a * b) v = rotQ a (rotQ b v) := by
  simp only [rotQ, Quat.mul_def, Quat.mul, Quat.conj, quat_ext_iff]
  refine ⟨by ring, by ring, by ring, by ring⟩

theorem setFromEulerZYX_eq_product (r p y : ℝ) :
    setFromEulerZYX r p y =
      setFromAxisAngle ⟨0, 0, 1⟩ y *
        (setFromAxisAngle ⟨0, 1, 0⟩ p * setFromAxisAngle ⟨1, 0, 0⟩ r) := by
  simp only [setFromEulerZYX, setFromAxisAngle, Quat.mul_def, Quat.mul, quat_ext_iff]
  refine ⟨by ring, by ring, by ring, by ring⟩

/-- Sanity grounding: `setFromAxisAngle` about the X axis really rotates the
unit Y vector by the full angle in the Y-Z plane. -/
theorem rotQ_xAxis_unitY (θ : ℝ) :
    rotQ (setFromAxisAngle ⟨1, 0, 0⟩ θ) ⟨0, 0, 1, 0⟩ =
      ⟨0, 0, Real.cos θ, Real.sin θ⟩ := by
  have hpy : Real.sin (θ / 2) ^ 2 + Real.cos (θ / 2) ^ 2 = 1 :=
    Real.sin_sq_add_cos_sq (θ / 2)
  have hs : Real.sin θ = 2 * Real.sin (θ / 2) * Real.cos (θ / 2) := by
    have := Real.sin_two_mul (θ / 2)
    rw [show 2 * (θ / 2) = θ by ring] at this
    linarith
  have hc : Real.cos θ = 2 * Real.cos (θ / 2) ^ 2 - 1 := by
    have := Real.cos_two_mul (θ / 2)
    rw [show 2 * (θ / 2) = θ by ring] at this
    linarith
  simp only [rotQ, setFromAxisAngle, Quat.conj, Quat.mul_def, Quat.mul, quat_ext_iff]
  refine ⟨by ring, by ring, by nlinarith [hpy, hc], by nlinarith [hpy, hs]⟩

/-- C1: the rotation the builder derives from a `Pose`'s RPY triple — the
intrinsic-Euler conversion `new Euler(r, p, y, 'ZYX')` of `rpyToEuler` fed to
`Quaternion.setFromEuler` — acts on every vector exactly as the extrinsic
(fixed-axis) composition: first a rotation of `r` about the fixed X axis,
then `p` about the fixed Y axis, then `y` about the fixed Z axis; the
quaternion itself is the product `qZ(y) * qY(p) * qX(r)`. -/
theorem builder_rpy_rotation_is_extrinsic_XYZ (r p y : ℝ) (v : Quat) :
    rotQ (rpyToQuat ⟨r, p, y⟩) v = extrinsicXYZ r p y v ∧
      rpyToQuat ⟨r, p, y⟩ =
        setFromAxisAngle ⟨0, 0, 1⟩ y *
          (setFromAxisAngle ⟨0, 1, 0⟩ p * setFromAxisAngle ⟨1, 0, 0⟩ r) := by
  have hq : rpyToQuat ⟨r, p, y⟩ =
      setFromAxisAngle ⟨0, 0, 1⟩ y *
        (setFromAxisAngle ⟨0, 1, 0⟩ p * setFromAxisAngle ⟨1, 0, 0⟩ r) :=
    setFromEulerZYX_eq_product r p y
  refine ⟨?_, hq⟩
  rw [hq, rotQ_mul, rotQ_mul]
  rfl

theorem clampToLimits_eq_clampSpec {α : Type} [LinearOrder α]
    (limits : Option (JointLimits α)) (v : α) :
    clampToLimits limits v = clampSpec limits v := by
  cases limits with
  | none => rfl
  | some lim =>
    simp only [clampToLimits, clampSpec]
    cases lim.lower with
    | none =>
      cases lim.upper with
      | none => rfl
      | some hi =>
        by_cases h : hi < v
        ·
          simp [h, min_eq_left h.le]
        ·
          simp [h, min_eq_right (not_lt.mp h)]
    | some lo =>
      by_cases h : v < lo
      ·
        have hmax : max lo v = lo := max_eq_left h.le
        cases lim.upper with
        | none => simp [h, hmax]
        | some hi =>
          by_cases h2 : hi < lo
          ·
            simp [h, hmax, h2, min_eq_left h2.le]
          ·
            simp [h, hmax, h2, min_eq_right (not_lt.mp h2)]
      ·
        have hmax : max lo v = v := max_eq_right (not_lt.mp h)
        cases lim.upper with
        | none => simp [h, hmax]
        | some hi =>
          by_cases h2 : hi < v
          ·
            simp [h, hmax, h2, min_eq_left h2.le]
          ·
            simp [h, hmax, h2, min_eq_right (not_lt.mp h2)]

theorem jointNodeState_ext_iff (a b : JointNodeState) :
    a = b ↔ a.position = b.position ∧ a.quaternion = b.quaternion ∧
      a.jointValue = b.jointValue := by
  constructor
  ·
    intro h
    subst h
    exact ⟨rfl, rfl, rfl⟩
  ·
    rintro ⟨h1, h2, h3⟩
    cases a
    cases b
    simp_all

theorem setJointValue_congr (jd : Joint ℝ) (s : JointNodeState) (v₁ v₂ : ℝ)
    (h : clampToLimits jd.limits v₁ = clampToLimits jd.limits v₂) :
    setJointValue jd s v₁ = setJointValue jd s v₂ := by
  simp only [setJointValue, h]

theorem setJointValue_idem (jd : Joint ℝ) (s : JointNodeState) (v : ℝ) :
    setJointValue jd (setJointValue jd s v) v = setJointValue jd s v := by
  cases s
  simp only [setJointValue]
  split_ifs <;> rfl

theorem setJointValue_jointValue (jd : Joint ℝ) (s : JointNodeState) (v : ℝ) :
    (setJointValue jd s v).jointValue = clampToLimits jd.limits v := by
  simp only [setJointValue]
  split_ifs <;> rfl

theorem setJointValue_rot_quaternion (jd : Joint ℝ) (s : JointNodeState) (v : ℝ)
    (ht : jd.type = "revolute" ∨ jd.type = "continuous") :
    (setJointValue jd s v).quaternion =
      rpyToQuat jd.origin.rpy *
        setFromAxisAngle (jointAxisVec jd) (clampToLimits jd.limits v) := by
  rcases ht with h | h <;> simp [setJointValue, h]

theorem clampSpec_above_upper {α : Type} [LinearOrder α] (lim : JointLimits α) (hi v : α)
    (hu : lim.upper = some hi) (hv : hi < v) :
    clampSpec (some lim) v = hi ∧ clampSpec (some lim) hi = hi := by
  cases hlow : lim.lower with
  | none =>
    exact ⟨by simp [clampSpec, hu, hlow, min_eq_left hv.le],
      by simp [clampSpec, hu, hlow]⟩
  | some lo =>
    constructor
    ·
      simp only [clampSpec, hu, hlow]
      exact min_eq_left (le_max_of_le_right hv.le)
    ·
      simp only [clampSpec, hu, hlow]
      exact min_eq_left (le_max_right lo hi)

theorem clampSpec_below_lower {α : Type} [LinearOrder α] (lim : JointLimits α) (lo v : α)
    (hlo : lim.lower = some lo) (hv : v < lo) :
    clampSpec (some lim) v = clampSpec (some lim) lo := by
  cases hup : lim.upper with
  | none => simp [clampSpec, hlo, hup, max_eq_left hv.le]
  | some hi => simp [clampSpec, hlo, hup, max_eq_left hv.le]

theorem rpyToQuat_zero : rpyToQuat ⟨0, 0, 0⟩ = ⟨1, 0, 0, 0⟩ := by
  simp [rpyToQuat, setFromEulerZYX, quat_ext_iff]

theorem setFromAxisAngle_zero_angle (axis : Vec3 ℝ) :
    setFromAxisAngle axis 0 = ⟨1, 0, 0, 0⟩ := by
  simp [setFromAxisAngle, quat_ext_iff]

/-- C2: for every revolute or continuous joint node and every applied value,
the resulting local orientation is the joint's origin rotation composed on
the right with the rotation of the applied (limit-clamped) value about the
node's axis — verbatim the requested value when the joint declares no
limits — and this composite replaces the orientation relative to the parent:
the result does not depend on the node's previous orientation. -/
theorem setJointValue_revolute_orientation (jd : Joint ℝ) (s : JointNodeState) (v : ℝ)
    (ht : jd.type = "revolute" ∨ jd.type = "continuous") :
    (setJointValue jd s v).quaternion =
      rpyToQuat jd.origin.rpy *
        setFromAxisAngle (jointAxisVec jd) (clampToLimits jd.limits v) ∧
    (jd.limits = none →
      (setJointValue jd s v).quaternion =
        rpyToQuat jd.origin.rpy * setFromAxisAngle (jointAxisVec jd) v) ∧
    ∀ s' : JointNodeState,
      (setJointValue jd s' v).quaternion = (setJointValue jd s v).quaternion := by
  refine ⟨setJointValue_rot_quaternion jd s v ht, ?_, ?_⟩
  ·
    intro hl
    rw [setJointValue_rot_quaternion jd s v ht, hl]
    rfl
  ·
    intro s'
    rw [setJointValue_rot_quaternion jd s v ht, setJointValue_rot_quaternion jd s' v ht]

theorem setJointValue_revolute_orientation_witness :
    (setJointValue exRevolute state0 1).quaternion =
      rpyToQuat exRevolute.origin.rpy *
        setFromAxisAngle (jointAxisVec exRevolute) (clampToLimits exRevolute.limits 1) :=
  (setJointValue_revolute_orientation exRevolute state0 1 (Or.inl rfl)).1

/-- C4 counterexample: the continuous joint `exContinuousLimited` carries
parsed lower/upper limit entries `[0, 0]`; `setJointValue` with requested
value `1` does NOT rotate by the full requested value about the axis — the
clamp runs before the type dispatch, so the applied angle is `0`, not `1`. -/
theorem continuous_limited_not_full_value_counterexample :
    ¬ (setJointValue exContinuousLimited state0 1).quaternion =
        rpyToQuat exContinuousLimited.origin.rpy *
          setFromAxisAngle (jointAxisVec exContinuousLimited) 1 := by
  intro h
  rw [setJointValue_rot_quaternion exContinuousLimited state0 1 (Or.inr rfl)] at h
  have hc : clampToLimits exContinuousLimited.limits (1 : ℝ) = 0 := by
    simp only [exContinuousLimited, exRevolute, clampToLimits]
    norm_num
  rw [hc] at h
  have hax : jointAxisVec exContinuousLimited = ⟨0, 0, 1⟩ := rfl
  have hrpy : exContinuousLimited.origin.rpy = ⟨0, 0, 0⟩ := rfl
  rw [hax, hrpy, rpyToQuat_zero, setFromAxisAngle_zero_angle] at h
  have hz := congrArg Quat.z h
  simp [Quat.mul_def, Quat.mul, setFromAxisAngle] at hz
  have hpos : 0 < Real.sin ((1 : ℝ) / 2) := by
    apply Real.sin_pos_of_pos_of_lt_pi
    · norm_num
    · linarith [Real.pi_gt_three]
  rw [one_div] at hpos
  linarith [hz, hpos]

/-- C4 amended: a continuous joint with no parsed limit entries applies the
full requested value; but when the parsed joint record carries lower/upper
limit entries, the value is clamped to them exactly as for a revolute joint
(the clamp is applied before the type dispatch), and the clamped value is
both stored and used as the rotation angle. -/
theorem setJointValue_continuous_clamped (jd : Joint ℝ) (s : JointNodeState) (v : ℝ)
    (ht : jd.type = "continuous") :
    (jd.limits = none →
      (setJointValue jd s v).quaternion =
        rpyToQuat jd.origin.rpy * setFromAxisAngle (jointAxisVec jd) v) ∧
    (setJointValue jd s v).quaternion =
      rpyToQuat jd.origin.rpy *
        setFromAxisAngle (jointAxisVec jd) (clampSpec jd.limits v) ∧
    (setJointValue jd s v).jointValue = clampSpec jd.limits v := by
  refine ⟨?_, ?_, ?_⟩
  ·
    intro hl
    rw [setJointValue_rot_quaternion jd s v (Or.inr ht), hl]
    rfl
  ·
    rw [setJointValue_rot_quaternion jd s v (Or.inr ht), clampToLimits_eq_clampSpec]
  ·
    rw [setJointValue_jointValue, clampToLimits_eq_clampSpec]

theorem setJointValue_continuous_clamped_witness :
    (setJointValue exContinuousLimited state0 1).quaternion =
      rpyToQuat exContinuousLimited.origin.rpy *
        setFromAxisAngle (jointAxisVec exContinuousLimited)
          (clampSpec exContinuousLimited.limits 1) :=
  (setJointValue_continuous_clamped exContinuousLimited state0 1 rfl).2.1

/-- C6: for a revolute joint with declared limits, a value above the upper
limit yields the same final transform as setting exactly the upper limit
(symmetrically for the lower limit); a value within the declared range is
applied unclamped (stored as-is and rotated by exactly `v`); and repeated
identical calls are idempotent — `1` or `n ≥ 1` calls with the same value
leave an identical final state. -/
theorem setJointValue_revolute_clamping_idempotent (jd : Joint ℝ) (s : JointNodeState)
    (lim : JointLimits ℝ) (v : ℝ) (ht : jd.type = "revolute")
    (hl : jd.limits = some lim) :
    (∀ hi : ℝ, lim.upper = some hi → hi < v →
      setJointValue jd s v = setJointValue jd s hi) ∧
    (∀ lo : ℝ, lim.lower = some lo → v < lo →
      setJointValue jd s v = setJointValue jd s lo) ∧
    (∀ lo hi : ℝ, lim.lower = some lo → lim.upper = some hi → lo ≤ v → v ≤ hi →
      (setJointValue jd s v).jointValue = v ∧
      (setJointValue jd s v).quaternion =
        rpyToQuat jd.origin.rpy * setFromAxisAngle (jointAxisVec jd) v) ∧
    ∀ n : ℕ, 1 ≤ n → (fun st => setJointValue jd st v)^[n] s = setJointValue jd s v := by
  refine ⟨?_, ?_, ?_, ?_⟩
  ·
    intro hi hu hv
    apply setJointValue_congr
    have hcl := clampSpec_above_upper lim hi v hu hv
    rw [clampToLimits_eq_clampSpec, clampToLimits_eq_clampSpec, hl, hcl.1, hcl.2]
  ·
    intro lo hlo hv
    apply setJointValue_congr
    rw [clampToLimits_eq_clampSpec, clampToLimits_eq_clampSpec, hl]
    exact clampSpec_below_lower lim lo v hlo hv
  ·
    intro lo hi hlo hhi hlov hvhi
    have hc : clampToLimits jd.limits v = v := by
      rw [clampToLimits_eq_clampSpec, hl]
      simp only [clampSpec, hlo, hhi]
      rw [max_eq_right hlov, min_eq_right hvhi]
    exact ⟨by rw [setJointValue_jointValue, hc],
      by rw [setJointValue_rot_quaternion jd s v (Or.inl ht), hc]⟩
  ·
    intro n hn
    induction n with
    | zero => exact absurd hn (by norm_num)
    | succ k ih =>
      cases k with
      | zero => simp
      | succ m =>
        rw [Function.iterate_succ_apply', ih (by omega)]
        exact setJointValue_idem jd s v

theorem setJointValue_revolute_clamping_idempotent_witness :
    setJointValue exRevoluteLimited state0 5 = setJointValue exRevoluteLimited state0 1 ∧
    (fun st => setJointValue exRevoluteLimited st 1)^[3] state0 =
      setJointValue exRevoluteLimited state0 1 :=
  ⟨(setJointValue_revolute_clamping_idempotent exRevoluteLimited state0
      ⟨some 0, some 1, none, none⟩ 5 rfl rfl).1 1 rfl (by norm_num),
   (setJointValue_revolute_clamping_idempotent exRevoluteLimited state0
      ⟨some 0, some 1, none, none⟩ 1 rfl rfl).2.2.2 3 (by norm_num)⟩

/-- C8: for a joint node whose type is `fixed`, `floating` or `planar`, a
value-setting call is accepted (it is an ordinary state update, no error
path exists) and leaves the node's transform — local position and
orientation — exactly as it was, for every value and any number of calls. -/
theorem setJointValue_fixed_transform_unchanged (jd : Joint ℝ) (s : JointNodeState) (v : ℝ)
    (ht : jd.type = "fixed" ∨ jd.type = "floating" ∨ jd.type = "planar") :
    (setJointValue jd s v).position = s.position ∧
    (setJointValue jd s v).quaternion = s.quaternion ∧
    ∀ n : ℕ, ((fun st => setJointValue jd st v)^[n] s).position = s.position ∧
      ((fun st => setJointValue jd st v)^[n] s).quaternion = s.quaternion := by
  have hne1 : ¬ (jd.type = "revolute" ∨ jd.type = "continuous") := by
    rcases ht with h | h | h <;> rw [h] <;> decide
  have hne2 : ¬ jd.type = "prismatic" := by
    rcases ht with h | h | h <;> rw [h] <;> decide
  have hbase : ∀ s' : JointNodeState, (setJointValue jd s' v).position = s'.position ∧
      (setJointValue jd s' v).quaternion = s'.quaternion := by
    intro s'
    simp [setJointValue, hne1, hne2]
  refine ⟨(hbase s).1, (hbase s).2, ?_⟩
  intro n
  induction n with
  | zero => simp
  | succ k ih =>
    rw [Function.iterate_succ_apply']
    exact ⟨((hbase _).1).trans ih.1, ((hbase _).2).trans ih.2⟩

theorem setJointValue_fixed_transform_unchanged_witness :
    (setJointValue exFixed state0 3).position = state0.position ∧
    (setJointValue exFixed state0 3).quaternion = state0.quaternion :=
  ⟨(setJointValue_fixed_transform_unchanged exFixed state0 3 (Or.inl rfl)).1,
   (setJointValue_fixed_transform_unchanged exFixed state0 3 (Or.inl rfl)).2.1⟩

/-- C10: for every joint node of any type and every requested value, after
`setJointValue` the stored `jointValue` equals the request clamped to the
declared lower/upper limits when present (raise to `lower`, then cap at
`upper` — equivalently `min upper (max lower v)` componentwise on the
declared bounds) and the request itself when no limits are declared; in
particular the stored value is updated even for types whose transform never
changes. -/
theorem setJointValue_stores_clamped_value (jd : Joint ℝ) (s : JointNodeState) (v : ℝ) :
    (setJointValue jd s v).jointValue = clampSpec jd.limits v := by
  rw [setJointValue_jointValue, clampToLimits_eq_clampSpec]

/-- On the cyclic model the traversal exhausts every amount of fuel: links
`A` and `B` call each other forever. -/
theorem cyclic_buildLink_none :
    ∀ fuel : Nat, (∀ acc, buildLinkF cyclicModel fuel "A" acc = none) ∧
      (∀ acc, buildLinkF cyclicModel fuel "B" acc = none) := by
  intro fuel
  induction fuel with
  | zero => exact ⟨fun _ => rfl, fun _ => rfl⟩
  | succ k ih =>
    have stepA : ∀ acc : BuildResult, buildLinkF cyclicModel (k + 1) "A" acc =
        (buildLinkF cyclicModel k "B"
          ⟨acc.builtLinks ++ ["A"], acc.builtJoints ++ ["jAB"]⟩).bind some :=
      fun _ => rfl
    have stepB : ∀ acc : BuildResult, buildLinkF cyclicModel (k + 1) "B" acc =
        (buildLinkF cyclicModel k "A"
          ⟨acc.builtLinks ++ ["B"], acc.builtJoints ++ ["jBA"]⟩).bind some :=
      fun _ => rfl
    constructor
    ·
      intro acc
      rw [stepA acc, ih.2]
      rfl
    ·
      intro acc
      rw [stepB acc, ih.1]
      rfl

/-- C3 counterexample: on `diamondModel` — malformed, link `B` reachable as a
joint child by two paths — the build does NOT skip the already-built link
`B`: it creates and registers a second node for `B` (the registration
sequence is `R, B, B`, so two nodes carry link name `B`, and the later one
overwrites the earlier map entry — last arrival wins, not first). -/
theorem build_revisit_counterexample :
    buildRobotStructure diamondModel 8 = some ⟨["R", "B", "B"], ["j1", "j2"]⟩ ∧
    ¬ ((["R", "B", "B"] : List String).count "B" ≤ 1) := by
  exact ⟨by decide, by decide⟩

/-- C3 amended: the build traversal has no guard against revisiting an
already-built link.  A link reachable as a joint child by more than one path
is built once per arrival (a fresh node each arrival, the link-name map
keeping the last); on a malformed model whose joint graph reaches a cycle
from the root the traversal never terminates (it exhausts every fuel
bound), while on an acyclic (even if multi-path) model it terminates. -/
theorem build_no_revisit_guard :
    (∀ fuel : Nat, buildRobotStructure cyclicModel fuel = none) ∧
    buildRobotStructure diamondModel 8 = some ⟨["R", "B", "B"], ["j1", "j2"]⟩ ∧
    ((some (⟨["R", "B", "B"], ["j1", "j2"]⟩ : BuildResult)).map
        (fun r => r.builtLinks.count "B") = some 2) := by
  refine ⟨?_, by decide, by decide⟩
  intro fuel
  cases fuel with
  | zero => rfl
  | succ k =>
    have stepR : buildRobotStructure cyclicModel (k + 1) =
        (buildLinkF cyclicModel k "A" ⟨["R"], ["jRA"]⟩).bind some := rfl
    rw [stepR, (cyclic_buildLink_none k).1]
    rfl

theorem except_bind_ok {ε β γ : Type} (x : Except ε β) (f : β → Except ε γ) (c : γ) :
    (x >>= f) = .ok c ↔ ∃ b, x = .ok b ∧ f b = .ok c := by
  cases x <;> simp [Bind.bind, Except.bind]

theorem string_data_append (a b : String) : (a ++ b).data = a.data ++ b.data := by
  cases a
  cases b
  rfl

/-- A `foldlM` over `Except` that applies a fallible `g` to every element
succeeds only if `g` succeeds on every element of the list. -/
theorem foldlM_except_ok {β γ δ : Type} (g : β → Except String γ) (h : δ → γ → δ) :
    ∀ (l : List β) (a r : δ),
      l.foldlM (fun acc el => do
        let x ← g el
        pure (h acc x)) a = Except.ok r →
      ∀ el ∈ l, ∃ x, g el = Except.ok x := by
  intro l
  induction l with
  | nil =>
    intro a r _ el hel
    simp at hel
  | cons b t ih =>
    intro a r hfold el hel
    rw [List.foldlM_cons] at hfold
    rcases (except_bind_ok _ _ _).mp hfold with ⟨a1, hstep, hrest⟩
    rcases (except_bind_ok _ _ _).mp hstep with ⟨x, hgb, _⟩
    rcases List.mem_cons.mp hel with rfl | hmem
    ·
      exact ⟨x, hgb⟩
    ·
      exact ih a1 r hrest el hmem

/-- C5: after parsing, the model's inferred root link is exactly what
`findRootLink` computes on the parsed link/joint maps; `findRootLink`
returns `some n` precisely when `n` is the first link in link-iteration
order that appears as no joint's child (every earlier link does appear as
some joint's child); and a model whose `rootLink` is unset builds to a tree
that registered no link node and no joint node — both name maps empty. -/
theorem root_link_inference {α : Type} [Zero α] (pf : String → α) (doc : XMLElem)
    (opts : ParseURDFOptions) (m : RobotModel α) (fuel : Nat) (n : String) :
    (parseURDF pf doc opts = .ok m →
      m.rootLink = findRootLink (m.links.map Prod.fst) (m.joints.map Prod.snd)) ∧
    (findRootLink (m.links.map Prod.fst) (m.joints.map Prod.snd) = some n ↔
      n ∉ childLinkNames m ∧
      ∃ pre post, m.links.map Prod.fst = pre ++ n :: post ∧
        ∀ x ∈ pre, x ∈ childLinkNames m) ∧
    (m.rootLink = none → buildRobotStructure m fuel = some ⟨[], []⟩) := by
  refine ⟨?_, ?_, ?_⟩
  ·
    intro h
    cases hrobot : getChild doc "robot" with
    | none => simp [parseURDF, hrobot] at h
    | some robotEl =>
      simp only [parseURDF, hrobot] at h
      rcases (except_bind_ok _ _ _).mp h with ⟨ms, _, h2⟩
      rcases (except_bind_ok _ _ _).mp h2 with ⟨ls, _, h3⟩
      rcases (except_bind_ok _ _ _).mp h3 with ⟨js, _, h4⟩
      simp only [pure, Except.pure, Except.ok.injEq] at h4
      subst h4
      rfl
  ·
    simp only [findRootLink, childLinkNames]
    rw [List.find?_eq_some]
    constructor
    ·
      rintro ⟨hpn, pre, post, hsplit, hpre⟩
      refine ⟨?_, pre, post, hsplit, ?_⟩
      ·
        simpa [List.elem_iff] using hpn
      ·
        intro x hx
        have := hpre x hx
        simpa [List.elem_iff] using this
    ·
      rintro ⟨hn, pre, post, hsplit, hpre⟩
      refine ⟨by simpa [List.elem_iff] using hn, pre, post, hsplit, ?_⟩
      intro x hx
      have := hpre x hx
      simpa [List.elem_iff] using this
  ·
    intro h
    simp [buildRobotStructure, h]

/-- C7 counterexample: with `packageMap = {foo ↦ "rel"}` (a relative mapped
prefix) and `workingPath = "/base"`, the URI `package://foo/bar.stl` is NOT
resolved to `<mappedPrefix>/<rest> = rel/bar.stl`: the rewritten name, being
relative, additionally receives the workingPath prefix. -/
theorem package_mapping_counterexample :
    resolveMeshFilename { packageMap := [("foo", "rel")], workingPath := some "/base" }
        "package://foo/bar.stl" = "/base/rel/bar.stl" ∧
    ("/base/rel/bar.stl" : String) ≠ "rel/bar.stl" := by
  exact ⟨by decide, by decide⟩

/-- C7 amended: a `package://<id>/<rest>` URI whose id has a nonempty mapping
is rewritten to `<mappedPrefix>/<rest>`, and that is the final result when
the rewritten name is absolute (starts with `/`); when the rewritten name is
relative and a nonempty `workingPath` is set it is additionally prefixed
with `<workingPath>/`.  A `package://` URI whose id is unmapped (or mapped
to the empty string) is returned byte-for-byte unchanged.  A nonempty
relative filename (neither `package://` nor absolute) with a nonempty
`workingPath` set is prefixed as `<workingPath>/<filename>`.  The claim's
two concrete examples hold as stated. -/
theorem mesh_filename_resolution (opts : ParseURDFOptions)
    (uri pkg rest mapped f wp : String) :
    (strStartsWith uri "package://" = true → splitPackageURI uri = some (pkg, rest) →
      opts.packageMap.lookup pkg = some mapped → mapped ≠ "" →
      strStartsWith (mapped ++ "/" ++ rest) "/" = true →
      resolveMeshFilename opts uri = mapped ++ "/" ++ rest) ∧
    (strStartsWith uri "package://" = true → splitPackageURI uri = some (pkg, rest) →
      opts.packageMap.lookup pkg = some mapped → mapped ≠ "" →
      strStartsWith (mapped ++ "/" ++ rest) "package://" = false →
      strStartsWith (mapped ++ "/" ++ rest) "/" = false →
      opts.workingPath = some wp → wp ≠ "" →
      resolveMeshFilename opts uri = wp ++ "/" ++ (mapped ++ "/" ++ rest)) ∧
    (strStartsWith uri "package://" = true →
      (∀ pkg2 rest2, splitPackageURI uri = some (pkg2, rest2) →
        opts.packageMap.lookup pkg2 = none ∨ opts.packageMap.lookup pkg2 = some "") →
      resolveMeshFilename opts uri = uri) ∧
    (strStartsWith f "package://" = false → strStartsWith f "/" = false → f ≠ "" →
      opts.workingPath = some wp → wp ≠ "" →
      resolveMeshFilename opts f = wp ++ "/" ++ f) ∧
    resolveMeshFilename { packageMap := [("foo", "/x")] } "package://foo/bar.stl" =
      "/x/bar.stl" ∧
    resolveMeshFilename { workingPath := some "/base" } "meshes/a.stl" =
      "/base/meshes/a.stl" := by
  have hrewrite : strStartsWith uri "package://" = true →
      splitPackageURI uri = some (pkg, rest) →
      opts.packageMap.lookup pkg = some mapped → mapped ≠ "" →
      resolvePackageURI opts uri = mapped ++ "/" ++ rest := by
    intro hstart hsplit hlook hne
    simp [resolvePackageURI, hstart, hsplit, hlook, hne]
  refine ⟨?_, ?_, ?_, ?_, by decide, by decide⟩
  ·
    intro hstart hsplit hlook hne habs
    rw [resolveMeshFilename, hrewrite hstart hsplit hlook hne]
    simp only [applyWorkingPath]
    cases opts.workingPath with
    | none => rfl
    | some w => simp [habs]
  ·
    intro hstart hsplit hlook hne hpkg habs hwp hwpne
    rw [resolveMeshFilename, hrewrite hstart hsplit hlook hne]
    simp only [applyWorkingPath, hwp]
    have hne2 : mapped ++ "/" ++ rest ≠ "" := by
      intro hempty
      have hd : (mapped ++ "/" ++ rest).data = ([] : List Char) :=
        congrArg String.data hempty
      rw [string_data_append, string_data_append] at hd
      rcases List.append_eq_nil.mp hd with ⟨hd1, -⟩
      rcases List.append_eq_nil.mp hd1 with ⟨-, hd2⟩
      exact absurd hd2 (by decide)
    simp [hwpne, hne2, hpkg, habs]
  ·
    intro hstart hsplit
    have hres : resolvePackageURI opts uri = uri := by
      simp only [resolvePackageURI, hstart, if_true]
      cases hs : splitPackageURI uri with
      | none => rfl
      | some pr =>
        rcases pr with ⟨pkg2, rest2⟩
        rcases hsplit pkg2 rest2 hs with hl | hl <;> simp [hl]
    simp only [resolveMeshFilename, hres, applyWorkingPath]
    cases opts.workingPath with
    | none => rfl
    | some w => simp [hstart]
  ·
    intro hpkg habs hne hwp hwpne
    have hres : resolvePackageURI opts f = f := by
      simp [resolvePackageURI, hpkg]
    simp only [resolveMeshFilename, hres, applyWorkingPath, hwp]
    simp [hwpne, hne, hpkg, habs]

/-- C9: parsing fails with a thrown error — and, the result being a single
`Except` value, no partial model — whenever a parsed geometry element
matches none of the five supported shape tags, or a numeric vector
attribute does not split into exactly the expected token count (3 for an
xyz/size/axis vector, 4 for an rgba color); in particular a document whose
robot contains a link with a visual whose geometry matches no supported tag
never parses to a model. -/
theorem parse_fails_on_bad_geometry_and_vectors {α : Type} [Zero α] (pf : String → α)
    (doc robotEl linkEl visualEl geometryEl : XMLElem) (opts : ParseURDFOptions)
    (str : String) :
    ((splitWhitespaceJS str).length ≠ 3 →
      parseVector3 pf str = .error ("Invalid vector3 format: " ++ str)) ∧
    (∀ e : XMLElem,
      (splitWhitespaceJS (jsOr (getAttribute e "rgba" none) "0 0 0 1")).length ≠ 4 →
      parseColor pf e =
        .error ("Invalid color format: " ++ jsOr (getAttribute e "rgba" none) "0 0 0 1")) ∧
    (getChild geometryEl "box" = none → getChild geometryEl "cylinder" = none →
      getChild geometryEl "sphere" = none → getChild geometryEl "mesh" = none →
      getChild geometryEl "capsule" = none →
      parseGeometry pf geometryEl opts = .error "Unknown geometry type") ∧
    (getChild doc "robot" = some robotEl →
      linkEl ∈ getChildren robotEl "link" →
      visualEl ∈ getChildren linkEl "visual" →
      getChild visualEl "geometry" = some geometryEl →
      getChild geometryEl "box" = none → getChild geometryEl "cylinder" = none →
      getChild geometryEl "sphere" = none → getChild geometryEl "mesh" = none →
      getChild geometryEl "capsule" = none →
      ∀ mdl : RobotModel α, parseURDF pf doc opts ≠ .ok mdl) := by
  have hvec : (splitWhitespaceJS str).length ≠ 3 →
      parseVector3 pf str = .error ("Invalid vector3 format: " ++ str) := by
    intro hlen
    rcases hsp : splitWhitespaceJS str with _ | ⟨a, _ | ⟨b, _ | ⟨c, _ | ⟨d, t⟩⟩⟩⟩ <;>
      (simp only [parseVector3, hsp]
       all_goals first
        | rfl
        | (exact absurd (by rw [hsp]; rfl) hlen))
  refine ⟨hvec, ?_, ?_, ?_⟩
  ·
    intro e hlen
    rcases hsp : splitWhitespaceJS (jsOr (getAttribute e "rgba" none) "0 0 0 1") with
      _ | ⟨a, _ | ⟨b, _ | ⟨c, _ | ⟨d, _ | ⟨g, t⟩⟩⟩⟩⟩ <;>
      (simp only [parseColor, hsp]
       all_goals first
        | rfl
        | (exact absurd (by rw [hsp]; rfl) hlen))
  ·
    intro h1 h2 h3 h4 h5
    simp [parseGeometry, h1, h2, h3, h4, h5]
  ·
    intro hrobot hlink hvisual hgeom h1 h2 h3 h4 h5 mdl h
    have hgeoerr : parseGeometry pf geometryEl opts =
        Except.error "Unknown geometry type" := by
      simp [parseGeometry, h1, h2, h3, h4, h5]
    have hnovisual : ∀ v : Visual α, parseVisual pf opts visualEl ≠ .ok v := by
      intro v hv
      simp only [parseVisual, hgeom] at hv
      split at hv <;>
        (rcases (except_bind_ok _ _ _).mp hv with ⟨ori, -, hv2⟩
         rcases (except_bind_ok _ _ _).mp hv2 with ⟨geo, hgeo2, -⟩
         rw [hgeoerr] at hgeo2
         exact Except.noConfusion hgeo2)
    simp only [parseURDF, hrobot] at h
    rcases (except_bind_ok _ _ _).mp h with ⟨ms, -, hb2⟩
    rcases (except_bind_ok _ _ _).mp hb2 with ⟨ls, hlinks, -⟩
    rcases foldlM_except_ok (parseLink pf opts) (fun acc l => mapSet acc l.name l)
      (getChildren robotEl "link") [] ls hlinks linkEl hlink with ⟨lk, hlk⟩
    simp only [parseLink] at hlk
    split at hlk
    ·
      exact Except.noConfusion hlk
    ·
      split at hlk
      ·
        rcases (except_bind_ok _ _ _).mp hlk with ⟨i, -, hlk2⟩
        rcases (except_bind_ok _ _ _).mp hlk2 with ⟨y, -, hlk3⟩
        rcases (except_bind_ok _ _ _).mp hlk3 with ⟨vs, hvs, -⟩
        rcases foldlM_except_ok (parseVisual pf opts) (fun acc v => acc ++ [v])
          (getChildren linkEl "visual") [] vs hvs visualEl hvisual with ⟨vi, hvi⟩
        exact hnovisual vi hvi
      ·
        rcases (except_bind_ok _ _ _).mp hlk with ⟨y, -, hlk2⟩
        rcases (except_bind_ok _ _ _).mp hlk2 with ⟨vs, hvs, -⟩
        rcases foldlM_except_ok (parseVisual pf opts) (fun acc v => acc ++ [v])
          (getChildren linkEl "visual") [] vs hvs visualEl hvisual with ⟨vi, hvi⟩
        exact hnovisual vi hvi

end ThreeUrdf
